import Mathlib

/-!
Shallow embedding of the MCP Vision Bridge request pipeline:
model selection (`ModelManager` / `ModelRouter`), upstream retry loop and
error classification (`OpenRouterClient`), circuit breaker, image
processing, and response transformation, together with theorems checking
the specification's claims against these definitions.
-/


namespace VisionBridge

/-- Substring test used for `model.includes("gpt-4o")`-style checks. -/
def charsContain (l pat : List Char) : Bool :=
  match l with
  | [] => pat.isEmpty
  | _ :: rest => pat.isPrefixOf l || charsContain rest pat

/-- Embedding of `s.includes(pat)` on strings (JavaScript `String.prototype.includes`). -/
def strIncludes (s pat : String) : Bool :=
  charsContain s.toList pat.toList

/-- Per-model capability record (`ModelCapabilities` in client.ts). -/
structure ModelCapabilities where
  supportsImages : Bool
  supportsStreaming : Bool
  maxImageSize : Nat
  supportedFormats : List String
  maxTokens : Nat
  contextLength : Nat
  pricingPrompt : ℚ
  pricingCompletion : ℚ
deriving Repr, DecidableEq

/-- Model configuration: primary model id plus fallback ids (`ModelConfig`). -/
structure ModelConfig where
  primary : String
  fallback : List String
deriving Repr, DecidableEq

/-- The capability table installed by `initializeModelCapabilities`. -/
def initialCapabilities : String → Option ModelCapabilities := fun id =>
  if id = "x-ai/grok-beta-vision" then
    some ⟨true, true, 8 * 1024 * 1024, ["jpeg", "jpg", "png", "webp"],
      4000, 128000, 5/1000, 15/1000⟩
  else if id = "google/gemini-2.0-flash-001" then
    some ⟨true, true, 20 * 1024 * 1024, ["jpeg", "jpg", "png", "webp", "gif"],
      4000, 1000000, 1/1000, 4/1000⟩
  else if id = "anthropic/claude-3-5-sonnet-20241022" then
    some ⟨true, true, 5 * 1024 * 1024, ["jpeg", "jpg", "png"],
      4000, 200000, 3/1000, 15/1000⟩
  else if id = "openai/gpt-4o" then
    some ⟨true, true, 20 * 1024 * 1024, ["jpeg", "jpg", "png", "webp", "gif"],
      4000, 128000, 5/1000, 15/1000⟩
  else if id = "openai/gpt-4o-mini" then
    some ⟨true, true, 20 * 1024 * 1024, ["jpeg", "jpg", "png", "webp", "gif"],
      4000, 128000, 15/100000, 6/10000⟩
  else none

/-- State of a `ModelManager`: its configuration and its capability map
(the map is the initial table possibly extended by `setModelCapabilities`,
so we keep it general). -/
structure MState where
  config : ModelConfig
  caps : String → Option ModelCapabilities

/-- Routing request hints (`RoutingRequest`); absent optional fields are
modelled as `false` / `none`, matching JavaScript falsiness of `undefined`. -/
structure RoutingRequest where
  hasImage : Bool := false
  requiresHighQuality : Bool := false
  requiresFastResponse : Bool := false
  maxTokens : Option Nat := none
  preferredModel : Option String := none
  costSensitive : Bool := false
  fallbackAllowed : Bool := false

/-- A selection result (`ModelSelection`). -/
structure ModelSelection where
  model : String
  confidence : ℚ
  reason : String
deriving Repr, DecidableEq

/-- Embedding of `isModelAvailable`: the id is the configured primary or a fallback. -/
def isModelAvailable (st : MState) (modelId : String) : Bool :=
  st.config.primary == modelId || st.config.fallback.contains modelId

/-- Embedding of `getAvailableModels`: `[primary, ...fallback].filter(Boolean)` —
the filter drops empty strings (falsy). -/
def getAvailableModels (st : MState) : List String :=
  (st.config.primary :: st.config.fallback).filter (fun m => m ≠ "")

/-- Static priority order used by `selectBestModel`. -/
def priorityOrder : List String :=
  ["x-ai/grok-beta-vision", "google/gemini-2.0-flash-001",
   "anthropic/claude-3-5-sonnet-20241022", "openai/gpt-4o",
   "openai/gpt-4o-mini"]

/-- Embedding of `selectBestModel`: first model of the priority order present in the
candidate list, else the first candidate; `none` models the
`throw new Error('No available models')` on an empty list. -/
def selectBestModel (models : List String) : Option String :=
  if models.isEmpty then none
  else
    match priorityOrder.find? (fun p => models.contains p) with
    | some p => some p
    | none => models.head?

/-- Embedding of `calculateConfidence`: base 0.5, +0.3 for matching image support,
+0.2 for a recognized high-quality model under `requiresHighQuality`,
−0.5 when the image requirement is not met, clamped to [0, 1];
0.5 when the model has no capability entry. -/
def calculateConfidence (st : MState) (model : String) (req : RoutingRequest) : ℚ :=
  match st.caps model with
  | none => 1/2
  | some c =>
    let conf : ℚ := 1/2
    let conf := if req.hasImage && c.supportsImages then conf + 3/10 else conf
    let conf := if req.requiresHighQuality &&
        (strIncludes model "gpt-4o" || strIncludes model "claude-3-5-sonnet")
      then conf + 1/5 else conf
    let conf := if req.hasImage && !c.supportsImages then conf - 1/2 else conf
    max 0 (min 1 conf)

/-- Embedding of `getSelectionReason`. -/
def getSelectionReason (st : MState) (model : String) (req : RoutingRequest) : String :=
  let reasons : List String :=
    (if req.hasImage then ["supports image processing"] else []) ++
    (if req.requiresHighQuality then ["high-quality output"] else []) ++
    (if st.config.primary = model then ["primary model"]
     else if st.config.fallback.contains model then ["fallback model"] else [])
  if reasons.isEmpty then "default selection"
  else String.intercalate ", " reasons

/-- The preferred-model fast path at the top of `selectModel`: returns the
selection when `preferredModel` is truthy, available, has a known
capability entry, and supports images whenever `hasImage` is set;
otherwise control falls through to the filtered candidate set. -/
def preferredHit (st : MState) (req : RoutingRequest) : Option ModelSelection :=
  match req.preferredModel with
  | none => none
  | some p =>
    if p ≠ "" && isModelAvailable st p then
      match st.caps p with
      | some c =>
        if !req.hasImage || c.supportsImages then
          some ⟨p, 1, "Preferred model specified and available"⟩
        else none
      | none => none
    else none

/-- First filtering stage of `selectModel`: keep image-capable models when
`hasImage` is set (a model without a capability entry is dropped, since
`capabilities.get(model)?.supportsImages` is falsy). -/
def imageFiltered (st : MState) (req : RoutingRequest) : List String :=
  if req.hasImage then
    (getAvailableModels st).filter
      (fun m => ((st.caps m).map (·.supportsImages)).getD false)
  else getAvailableModels st

/-- Second filtering stage of `selectModel`: minimum `maxTokens` capacity
when the request asks for more than 2000 tokens. -/
def tokenFiltered (st : MState) (req : RoutingRequest) : List String :=
  match req.maxTokens with
  | some t =>
    if t > 2000 then
      (imageFiltered st req).filter
        (fun m => ((st.caps m).map (·.maxTokens)).getD 0 ≥ t)
    else imageFiltered st req
  | none => imageFiltered st req

/-- Candidate pool of `selectModel` after soft degradation: the filtered
models, or the whole available pool when filtering left nothing. -/
def candidatePool (st : MState) (req : RoutingRequest) : List String :=
  if (tokenFiltered st req).isEmpty then getAvailableModels st
  else tokenFiltered st req

/-- Embedding of `ModelManager.selectModel`; `Except.error` models the thrown
`'No available models'`. -/
def selectModel (st : MState) (req : RoutingRequest) : Except String ModelSelection :=
  match preferredHit st req with
  | some sel => .ok sel
  | none =>
    match selectBestModel (candidatePool st req) with
    | none => .error "No available models"
    | some m => .ok ⟨m, calculateConfidence st m req, getSelectionReason st m req⟩

/-- Validation result (`validateModel` return shape). -/
structure ValidationResult where
  valid : Bool
  issues : List String
deriving Repr, DecidableEq

/-- Embedding of `ModelManager.validateModel` restricted to the two requirement fields
the router passes (`hasImage`, `maxTokens`); a `maxTokens` of 0 is falsy
in the source and skips the token check. -/
def validateModel (st : MState) (modelId : String)
    (hasImage : Bool) (maxTokens : Option Nat) : ValidationResult :=
  match st.caps modelId with
  | none => ⟨false, ["Model capabilities not known"]⟩
  | some c =>
    let issues : List String :=
      (if hasImage && !c.supportsImages then ["Model does not support images"] else []) ++
      (match maxTokens with
       | some t =>
         if t ≠ 0 && decide (c.maxTokens < t) then
           ["Model max tokens (" ++ toString c.maxTokens ++
            ") insufficient for request (" ++ toString t ++ ")"]
         else []
       | none => [])
    ⟨issues.isEmpty, issues⟩

/-- Fallback candidates considered by `ModelRouter.selectFallbackModel`:
every available model other than the configured primary. -/
def fallbackCandidates (st : MState) : List String :=
  (getAvailableModels st).filter
    (fun m => m ≠ st.config.primary && isModelAvailable st m)

/-- Embedding of `ModelRouter.selectFallbackModel`: first fallback candidate passing
validation at confidence 0.7, else the configured primary at 0.3. -/
def selectFallbackModel (st : MState) (req : RoutingRequest)
    (issues : List String) : ModelSelection :=
  match (fallbackCandidates st).find?
      (fun m => (validateModel st m req.hasImage req.maxTokens).valid) with
  | some m => ⟨m, 7/10, "Fallback model selected due to: " ++ String.intercalate ", " issues⟩
  | none =>
    ⟨st.config.primary, 3/10,
     "All models failed validation. Issues: " ++ String.intercalate ", " issues⟩

/-- Body of the `try` block of `ModelRouter.selectModel`: manager
selection (which can throw — the thrown error propagates), then
validation, then fallback selection when validation fails. -/
def routerSelectModelBody (st : MState) (req : RoutingRequest) :
    Except String ModelSelection :=
  match selectModel st req with
  | .error e => .error e
  | .ok sel =>
    let v := validateModel st sel.model req.hasImage req.maxTokens
    if v.valid then .ok sel else .ok (selectFallbackModel st req v.issues)

/-- Embedding of `ModelRouter.selectModel` with its `catch`: any thrown error is
converted into a primary-model selection at confidence 0.1. -/
def routerSelectModel (st : MState) (req : RoutingRequest) : ModelSelection :=
  match routerSelectModelBody st req with
  | .ok sel => sel
  | .error _ => ⟨st.config.primary, 1/10, "Fallback due to selection error"⟩



/-! ### Helper lemmas about model selection -/

/-- Configuration for the C1 counterexample: the only configured model has
no entry in the capability table. -/
def c1State : MState := ⟨⟨"custom/model", []⟩, initialCapabilities⟩

/-- Routing request with an image for the C1 counterexample. -/
def c1Req : RoutingRequest := { hasImage := true }

/-- Configuration for the C5 counterexample: the primary model is the
image-capable grok vision model. -/
def c5State : MState := ⟨⟨"x-ai/grok-beta-vision", []⟩, initialCapabilities⟩

/-- Request for the C5 counterexample: prefers the grok vision model but
asks for 8000 output tokens, more than the model's 4000-token capability. -/
def c5Req : RoutingRequest :=
  { hasImage := true, maxTokens := some 8000,
    preferredModel := some "x-ai/grok-beta-vision" }

/-- Configuration for the C9 counterexample: the primary model "p" has no
capability entry, so it always fails validation. -/
def c9State : MState := ⟨⟨"p", []⟩, initialCapabilities⟩

/-- The (empty) routing request used by the C9 counterexample. -/
def c9Req : RoutingRequest := {}

/-- Configuration for the C10 witness: no model configured at all. -/
def c10State : MState := ⟨⟨"", []⟩, initialCapabilities⟩

/-- A classified error (`VisionBridgeError`): error code, retryability,
optional retry-after delay in milliseconds. -/
structure VBError where
  code : String
  retryable : Bool
  retryAfter : Option Nat := none
deriving Repr, DecidableEq

/-- Retry-relevant client configuration (`OpenRouterConfig`); the
constructor installs defaults `maxRetries: 3`, `retryDelay: 1000` but an
explicit 0 survives the spread. -/
structure RetryConfig where
  maxRetries : Nat := 3
  retryDelay : Nat := 1000
deriving Repr, DecidableEq

/-- One upstream attempt's outcome: a response (abstracted to a number)
or a classified error thrown by the response interceptor. -/
inductive Outcome where
  | success (resp : Nat)
  | failure (e : VBError)
deriving Repr, DecidableEq

/-- Embedding of `this.config.maxRetries || 3` (JavaScript falsiness of 0). -/
def effMaxRetries (cfg : RetryConfig) : Nat :=
  if cfg.maxRetries = 0 then 3 else cfg.maxRetries

/-- Embedding of `lastError.retryAfter || this.config.retryDelay || 1000`: a zero
`retryAfter` is falsy and falls through to the base delay. -/
def backoffBase (cfg : RetryConfig) (e : VBError) : Nat :=
  match e.retryAfter with
  | some r => if r = 0 then (if cfg.retryDelay = 0 then 1000 else cfg.retryDelay) else r
  | none => if cfg.retryDelay = 0 then 1000 else cfg.retryDelay

/-- Result of a `createChatCompletion` run: the overall result, the
number of the last attempt made (1-based), and the backoff delays slept
between attempts, in order. -/
structure RunResult where
  result : Except VBError Nat
  attempts : Nat
  delays : List Nat
deriving Repr

/-- The `for` loop of `createChatCompletion`, at `attempt` with
`fuel = maxRetries − attempt + 1` iterations left; `outcomes n` is the
upstream outcome of attempt `n`. The fuel-0 branch models the
unreachable `throw lastError!` after the loop. -/
def retryGo (cfg : RetryConfig) (outcomes : Nat → Outcome) :
    Nat → Nat → RunResult
  | _, 0 => ⟨.error ⟨"UNREACHABLE", false, none⟩, 0, []⟩
  | attempt, fuel + 1 =>
    match outcomes attempt with
    | .success r => ⟨.ok r, attempt, []⟩
    | .failure e =>
      if !e.retryable || attempt == effMaxRetries cfg then ⟨.error e, attempt, []⟩
      else
        let d := backoffBase cfg e * 2 ^ (attempt - 1)
        let rest := retryGo cfg outcomes (attempt + 1) fuel
        ⟨rest.result, rest.attempts, d :: rest.delays⟩

/-- Embedding of `OpenRouterClient.createChatCompletion` as a function of the
per-attempt upstream outcomes. -/
def createChatCompletion (cfg : RetryConfig) (outcomes : Nat → Outcome) : RunResult :=
  retryGo cfg outcomes 1 (effMaxRetries cfg)

/-- Outcome sequence for the C2 counterexample: attempt 1 fails with a
retryable rate-limit error carrying `retryAfter = 0` (as produced by a
`Retry-After: 0` response header), later attempts succeed. -/
def c2Outcomes : Nat → Outcome := fun n =>
  if n = 1 then .failure ⟨"RATE_LIMITED", true, some 0⟩ else .success 42

/-- An upstream HTTP error response as seen by `handleError`: status code
plus the parsed `retry-after` header value in seconds, when present. -/
structure ErrResponse where
  status : Nat
  retryAfterHeader : Option Nat := none
deriving Repr, DecidableEq

/-- The `switch (status)` of `handleError`: classification of an HTTP
error response by status code. -/
def handleErrorStatus (cfg : RetryConfig) (r : ErrResponse) : VBError :=
  if r.status = 400 then ⟨"BAD_REQUEST", false, none⟩
  else if r.status = 401 then ⟨"AUTHENTICATION_ERROR", false, none⟩
  else if r.status = 403 then ⟨"AUTHORIZATION_ERROR", false, none⟩
  else if r.status = 404 then ⟨"MODEL_NOT_FOUND", false, none⟩
  else if r.status = 429 then
    ⟨"RATE_LIMITED", true, some ((r.retryAfterHeader.getD 60) * 1000)⟩
  else if r.status = 500 ∨ r.status = 502 ∨ r.status = 503 ∨ r.status = 504 then
    ⟨"SERVER_ERROR", true, some cfg.retryDelay⟩
  else ⟨"UNKNOWN_ERROR", decide (r.status ≥ 500), none⟩

/-- Embedding of `OpenRouterClient.handleError`: total classification of a
transport-level failure (`none`: no response object) or an HTTP error
response into a `VisionBridgeError`. -/
def handleError (cfg : RetryConfig) (resp : Option ErrResponse) : VBError :=
  match resp with
  | none => ⟨"NETWORK_ERROR", true, some cfg.retryDelay⟩
  | some r => handleErrorStatus cfg r

/-- Circuit-breaker status (`'closed' | 'open' | 'half-open'`). -/
inductive CBStatus where
  | closed
  | opened
  | halfOpen
deriving Repr, DecidableEq

/-- Circuit-breaker parameters (constructor arguments). -/
structure CBConfig where
  failureThreshold : Nat
  recoveryTimeout : Nat
deriving Repr, DecidableEq

/-- Mutable circuit-breaker state: consecutive failure count, timestamp
of the last failure, and the status. -/
structure CBState where
  failures : Nat
  lastFailureTime : Nat
  status : CBStatus
deriving Repr, DecidableEq

/-- Initial breaker state: `failures = 0`, `lastFailureTime = 0`, closed. -/
def CBState.init : CBState := ⟨0, 0, .closed⟩

/-- Result of the wrapped operation when it is run. -/
inductive OpResult where
  | success
  | failure
deriving Repr, DecidableEq

/-- Observable outcome of one `execute` call. -/
inductive ExecOutcome where
  | breakerOpenError
  | opSucceeded
  | opFailed
deriving Repr, DecidableEq

/-- Embedding of `onSuccess`: reset the failure count and close the breaker. -/
def cbOnSuccess (s : CBState) : CBState :=
  ⟨0, s.lastFailureTime, .closed⟩

/-- Embedding of `onFailure`: count the failure, stamp the clock, open the breaker
once the threshold is reached. -/
def cbOnFailure (cfg : CBConfig) (s : CBState) (now : Nat) : CBState :=
  ⟨s.failures + 1, now,
   if s.failures + 1 ≥ cfg.failureThreshold then .opened else s.status⟩

/-- One run of the wrapped operation plus the success/failure bookkeeping
(the `try`/`catch` around `await operation()`). -/
def cbRunOp (cfg : CBConfig) (s : CBState) (now : Nat) (op : OpResult) :
    CBState × ExecOutcome × Bool :=
  match op with
  | .success => (cbOnSuccess s, .opSucceeded, true)
  | .failure => (cbOnFailure cfg s now, .opFailed, true)

/-- Embedding of `CircuitBreaker.execute` at time `now`, where `op` is what the
wrapped operation would do if run; the `Bool` records whether the
operation was actually run. -/
def cbExecute (cfg : CBConfig) (s : CBState) (now : Nat) (op : OpResult) :
    CBState × ExecOutcome × Bool :=
  match s.status with
  | .opened =>
    if now - s.lastFailureTime > cfg.recoveryTimeout then
      cbRunOp cfg ⟨s.failures, s.lastFailureTime, .halfOpen⟩ now op
    else (s, .breakerOpenError, false)
  | _ => cbRunOp cfg s now op

/-- Breaker states reachable from the initial state by `execute` calls. -/
inductive CBReachable (cfg : CBConfig) : CBState → Prop where
  | init : CBReachable cfg CBState.init
  | step (s : CBState) (now : Nat) (op : OpResult) :
      CBReachable cfg s → CBReachable cfg (cbExecute cfg s now op).1

/-- Iterated consecutive failures from the initial state, at times given
by `times` (attempt i runs at `times i`). -/
def cbConsecFailures (cfg : CBConfig) (times : Nat → Nat) : Nat → CBState
  | 0 => CBState.init
  | k + 1 => (cbExecute cfg (cbConsecFailures cfg times k) (times k) .failure).1

/-- Breaker configuration for the C3 witness: threshold 3, timeout 10. -/
def c3Cfg : CBConfig := ⟨3, 10⟩

/-- ASCII lowercasing of one character (JavaScript `toLowerCase` on the
ASCII range used by image formats). -/
def lowerChar (c : Char) : Char :=
  if 'A' ≤ c ∧ c ≤ 'Z' then Char.ofNat (c.toNat + 32) else c

/-- Embedding of `s.toLowerCase()` as a list-based computation. -/
def strLower (s : String) : String :=
  String.mk (s.toList.map lowerChar)

/-- Whitespace as recognized by `trim` / `\s` for the ASCII subset. -/
def isWsChar (c : Char) : Bool :=
  c = ' ' || c = '\t' || c = '\n' || c = '\r'

/-- Embedding of `s.trim()` as a list-based computation. -/
def strTrim (s : String) : String :=
  String.mk (((s.toList.dropWhile isWsChar).reverse.dropWhile isWsChar).reverse)

/-- Image processing policy (`ImageProcessingOptions` with the
constructor defaults merged in). -/
structure ImgOptions where
  maxSize : Nat := 10 * 1024 * 1024
  allowedFormats : List String := ["jpeg", "jpg", "png", "webp", "gif"]
  quality : Nat := 85
  maxDimension : Nat := 2048
deriving Repr, DecidableEq

/-- Embedding of `processImage` result (`ImageData`), with the encoded payload
abstracted to a byte list (its data-URL and base64 fields are derived
from these bytes). -/
structure ImageData where
  format : String
  size : Nat
  bytes : List Nat
deriving Repr, DecidableEq

/-- Embedding of `ImageProcessor.optimizeImage`: the external sharp resize/re-encode
pipeline is abstracted as `reEncode`; `none` models a thrown
optimization error, which is caught and degrades to the original buffer;
gif content is returned unchanged. -/
def optimizeImage (reEncode : String → List Nat → Option (List Nat))
    (buffer : List Nat) (format : String) : List Nat :=
  if strLower format = "gif" then buffer
  else
    match reEncode format buffer with
    | some b => b
    | none => buffer

/-- Embedding of `ImageProcessor.processImage` on an inline payload already decoded
to `buffer` with declared `format`: size ceiling first, then format
allow-list, then optimization; the optimized bytes are returned without
any further size check. -/
def processImage (opts : ImgOptions)
    (reEncode : String → List Nat → Option (List Nat))
    (buffer : List Nat) (format : String) : Except VBError ImageData :=
  if buffer.length > opts.maxSize then
    .error ⟨"IMAGE_TOO_LARGE", false, none⟩
  else if !(opts.allowedFormats.contains (strLower format)) then
    .error ⟨"UNSUPPORTED_FORMAT", false, none⟩
  else
    let optimized := optimizeImage reEncode buffer format
    .ok ⟨strLower format, optimized.length, optimized⟩

/-- Embedding of `/[.!?]\s*$/.test(chunk)`: the last non-whitespace character is
sentence punctuation. -/
def strEndsSentence (s : String) : Bool :=
  match s.toList.reverse.dropWhile isWsChar with
  | c :: _ => c = '.' || c = '!' || c = '?'
  | [] => false

/-- Embedding of `/\n\s*$/.test(chunk)`: the trailing whitespace run contains a
newline. -/
def strEndsNewline (s : String) : Bool :=
  (s.toList.reverse.takeWhile isWsChar).contains '\n'

/-- Embedding of `/^[.!?\n]/.test(s)`: the first character is sentence punctuation or
a newline. -/
def strStartsPunct (s : String) : Bool :=
  match s.toList with
  | c :: _ => c = '.' || c = '!' || c = '?' || c = '\n'
  | [] => false

/-- Embedding of `replace(/\r\n/g, '\n').replace(/\r/g, '\n')` in one pass. -/
def normNl : List Char → List Char
  | [] => []
  | '\r' :: '\n' :: rest => '\n' :: normNl rest
  | '\r' :: rest => '\n' :: normNl rest
  | c :: rest => c :: normNl rest

/-- Emit a pending run of `n` newlines as `replace(/\n{3,}/g, '\n\n')`
does: runs of three or more collapse to two. -/
def emitNl (n : Nat) : List Char :=
  List.replicate (if n ≥ 3 then 2 else n) '\n'

/-- Embedding of `replace(/\n{3,}/g, '\n\n')`: collapse newline runs, tracking the
pending run length. -/
def collapseNl (n : Nat) : List Char → List Char
  | [] => emitNl n
  | c :: rest =>
    if c = '\n' then collapseNl (n + 1) rest
    else emitNl n ++ c :: collapseNl 0 rest

/-- Emit a pending run of spaces/tabs as `replace(/[ \t]{2,}/g, ' ')`
does: runs of two or more collapse to a single space. -/
def emitSp (pend : List Char) : List Char :=
  if pend.length ≥ 2 then [' '] else pend

/-- Embedding of `replace(/[ \t]{2,}/g, ' ')`: collapse space/tab runs, tracking the
pending run. -/
def collapseSp (pend : List Char) : List Char → List Char
  | [] => emitSp pend
  | c :: rest =>
    if c = ' ' || c = '\t' then collapseSp (pend ++ [c]) rest
    else emitSp pend ++ c :: collapseSp [] rest

/-- The whitespace normalization applied when `preserveFormatting` is
off: CR normalization, newline-run collapse, space-run collapse, trim. -/
def normalizeWhitespace (s : String) : String :=
  strTrim (String.mk (collapseSp [] (collapseNl 0 (normNl s.toList))))

/-- Index of the last occurrence of `c`, if any. -/
def lastIdxAux (c : Char) : List Char → Option Nat
  | [] => none
  | x :: rest =>
    match lastIdxAux c rest with
    | some i => some (i + 1)
    | none => if x = c then some 0 else none

/-- Embedding of `lastIndexOf` on a character list, with the JavaScript −1 for
"not found". -/
def lastIdx (l : List Char) (c : Char) : Int :=
  match lastIdxAux c l with
  | some i => (i : Int)
  | none => -1

/-- Embedding of `ResponseTransformer.truncateResponse`: cut to the first
`maxLength − 50` characters, back up to the last '.' or newline when
that boundary lies beyond 0.7·maxLength, and append the truncation
marker (`10·cutoff > 7·maxLength` is the exact-arithmetic form of
`cutoff > maxLength * 0.7`). -/
def truncateResponse (text : String) (maxLength : Nat) : String :=
  if text.length ≤ maxLength then text
  else
    let truncated := text.toList.take (maxLength - 50)
    let lastSentence : Int := lastIdx truncated '.'
    let lastLineBreak : Int := lastIdx truncated '\n'
    let cutoff := max lastSentence lastLineBreak
    if 10 * cutoff > 7 * (maxLength : Int) then
      String.mk (truncated.take (cutoff.toNat + 1)) ++ "\n\n[Response truncated]"
    else
      String.mk truncated ++ "...\n\n[Response truncated]"

/-- Keyword list of `appearsToBeImageAnalysis`. -/
def analysisKeywords : List String :=
  ["image", "picture", "photo", "visual", "see", "observe", "notice",
   "depicts", "shows", "displays", "contains", "features", "elements"]

/-- Embedding of `appearsToBeImageAnalysis`: the lowercased content mentions an
analysis keyword. -/
def appearsToBeImageAnalysis (content : String) : Bool :=
  analysisKeywords.any (fun k => strIncludes (strLower content) k)

/-- Indicator list of `isImageAnalysis`. -/
def analysisIndicators : List String :=
  ["i can see", "the image shows", "in this picture", "the photo depicts",
   "visual analysis", "image content", "what i observe"]

/-- Embedding of `isImageAnalysis`: the lowercased accumulated text contains an
analysis indicator phrase. -/
def isImageAnalysis (text : String) : Bool :=
  analysisIndicators.any (fun k => strIncludes (strLower text) k)

/-- Transformation options (`TransformOptions` with the transformer's
defaults; `chunkSize` belongs to `StreamingTransformOptions`). -/
structure TransformOptions where
  includeMetadata : Bool := true
  includeConfidence : Bool := true
  preserveFormatting : Bool := false
  maxResponseLength : Option Nat := some 4000
  addAnalysisPrefix : Bool := true
  chunkSize : Option Nat := none
deriving Repr, DecidableEq

/-- Embedding of `ResponseTransformer.formatResponseText`: trim, optional analysis
prefix, whitespace normalization, truncation (a zero or absent
`maxResponseLength` is falsy and skips truncation). -/
def formatResponseText (content : String) (opts : TransformOptions) : String :=
  let formatted := strTrim content
  let formatted :=
    if opts.addAnalysisPrefix && appearsToBeImageAnalysis formatted then
      "Image Analysis:\n\n" ++ formatted
    else formatted
  let formatted :=
    if !opts.preserveFormatting then normalizeWhitespace formatted else formatted
  match opts.maxResponseLength with
  | some l => if l ≠ 0 && formatted.length > l then truncateResponse formatted l else formatted
  | none => formatted

/-- The transformed response (`VisionResponse`): its single text block
plus the metadata fields the streaming/non-streaming paths set. -/
structure VResp where
  text : String
  modelUsed : String
  confidence : Option ℚ := none
  streaming : Option Bool := none
  partialFlag : Option Bool := none
deriving Repr

/-- One chunk of the upstream stream (`StreamChunk`). -/
inductive StreamChunk where
  | delta (data : String)
  | done
  | error (msg : String)
deriving Repr, DecidableEq

/-- Embedding of `shouldProcessChunk`: flush when the buffer reaches `chunkSize`
(default 100, `options.chunkSize || 100`), or ends in sentence
punctuation, or ends in a newline. -/
def shouldProcessChunk (chunk : String) (opts : TransformOptions) : Bool :=
  let chunkSize := match opts.chunkSize with
    | some n => if n = 0 then 100 else n
    | none => 100
  chunk.length ≥ chunkSize || strEndsSentence chunk || strEndsNewline chunk

/-- Embedding of `processChunk`: trim, then prepend a space unless the chunk starts
with punctuation or a newline (or is empty). -/
def processChunk (chunk : String) : String :=
  let processed := strTrim chunk
  if processed ≠ "" && !strStartsPunct processed then " " ++ processed else processed

/-- Embedding of `createIntermediateResponse`: partial streamed response at
confidence 0.5, optionally prefixed with the analyzing banner. -/
def createIntermediateResponse (text : String) (hasIA : Bool)
    (opts : TransformOptions) : VResp :=
  ⟨(if hasIA && opts.addAnalysisPrefix then "Analyzing image...\n\n" else "") ++ text,
   "streaming", some (1/2), some true, some true⟩

/-- Embedding of `createFinalResponse`: the accumulated text through
`formatResponseText`, marked non-partial at confidence 0.8. -/
def createFinalResponse (text : String) (opts : TransformOptions) : VResp :=
  ⟨formatResponseText text opts, "streaming", some (4/5), some false, some false⟩

/-- Embedding of `createErrorResponse`: apology text, zero confidence, no partial
marker. -/
def createErrorResponse (msg : String) : VResp :=
  ⟨"I apologize, but I encountered an error while processing your request: " ++
     msg ++ ". Please try again.",
   "error", some 0, none, none⟩

/-- The `for await` loop of `transformStreamingResponse`: returns the
yielded responses together with the accumulated text and chunk buffer
at loop exit (the code after the loop still runs on `break`). -/
def streamLoop (opts : TransformOptions) :
    List StreamChunk → String → String → Bool → (List VResp × String × String)
  | [], acc, buf, _ => ([], acc, buf)
  | .error e :: _, acc, buf, _ => ([createErrorResponse e], acc, buf)
  | .done :: _, acc, buf, _ =>
    ((if strTrim acc ≠ "" then [createFinalResponse acc opts] else []), acc, buf)
  | .delta d :: rest, acc, buf, hasIA =>
    if d = "" then streamLoop opts rest acc buf hasIA
    else
      let buf' := buf ++ d
      if shouldProcessChunk buf' opts then
        let acc' := acc ++ processChunk buf'
        let hasIA' := hasIA || isImageAnalysis acc'
        let r := streamLoop opts rest acc' "" hasIA'
        (createIntermediateResponse acc' hasIA' opts :: r.1, r.2)
      else streamLoop opts rest acc buf' hasIA

/-- Embedding of `ResponseTransformer.transformStreamingResponse` on a finite chunk
list: the loop's yields followed by the remaining-buffer final response. -/
def transformStreamingResponse (opts : TransformOptions)
    (chunks : List StreamChunk) : List VResp :=
  let r := streamLoop opts chunks "" "" false
  r.1 ++
    (if strTrim r.2.2 ≠ "" then
      [createFinalResponse (r.2.1 ++ processChunk r.2.2) opts]
    else [])

/-- Provider message content: a plain string or a mixed part sequence of
`(type, text?)` items. -/
inductive MsgContent where
  | str (s : String)
  | parts (items : List (String × Option String))
deriving Repr, DecidableEq

/-- The slice of `ChatCompletionResponse` the transformer reads: model
id and the first choice's message content (`none` models a response
with no choices or no message). -/
structure ChatResponse where
  model : String
  content : Option MsgContent
deriving Repr, DecidableEq

/-- Embedding of `extractContent`: a string content is used directly; a part sequence
keeps only nonempty text-typed items joined by spaces; a missing
choice/message throws. -/
def extractContent (resp : ChatResponse) : Except String String :=
  match resp.content with
  | none => .error "No choices in response"
  | some (.str s) => .ok s
  | some (.parts items) =>
    let texts := (items.filter
      (fun it => it.1 = "text" && it.2.isSome && !(it.2 = some ""))).map
      (fun it => it.2.getD "")
    let t := String.intercalate " " texts
    .ok (if t = "" then "No text content available" else t)

/-- Embedding of `ResponseTransformer.transformVisionResponse`, restricted to the
text part of the output contract: extraction failure produces the
apology response, success produces `formatResponseText` of the content. -/
def transformVisionResponse (resp : ChatResponse) (opts : TransformOptions) : VResp :=
  match extractContent resp with
  | .error _ =>
    ⟨"I apologize, but I encountered an error while processing the image. Please try again.",
     resp.model, some 0, none, none⟩
  | .ok content => ⟨formatResponseText content opts, resp.model, none, none, none⟩

/-- The C6 input stream: deltas "Hello", " world", "." then done. -/
def c6Stream : List StreamChunk := [.delta "Hello", .delta " world", .delta ".", .done]

/-- The C8 counterexample text: 50 'a's, a '.', then 50 more 'a's
(101 characters, the only sentence boundary at index 50). -/
def c8CxText : String := String.mk (List.replicate 50 'a' ++ '.' :: List.replicate 50 'a')

/-- The 5,000-character text of the claim's concrete scenario: a
sentence boundary exactly at position 3,950. -/
def c8Text : String := String.mk (List.replicate 3949 'a' ++ '.' :: List.replicate 1050 'b')

/-! ### Theorems -/

theorem selectBestModel_mem {models : List String} {m : String}
    (h : selectBestModel models = some m) : m ∈ models := by
  unfold selectBestModel at h
  split at h
  · exact absurd h (by simp)
  · split at h
    · rename_i p hp
      obtain ⟨rfl⟩ : p = m := by simpa using h
      have hc : models.contains m = true := by
        have := List.find?_some hp
        simpa using this
      exact List.mem_of_elem_eq_true hc
    · exact List.mem_of_mem_head? (by simpa using h)

theorem imageFiltered_subset {st : MState} {req : RoutingRequest} {m : String}
    (h : m ∈ imageFiltered st req) : m ∈ getAvailableModels st := by
  unfold imageFiltered at h
  split at h
  · exact (List.mem_filter.mp h).1
  · exact h

theorem tokenFiltered_subset {st : MState} {req : RoutingRequest} {m : String}
    (h : m ∈ tokenFiltered st req) : m ∈ getAvailableModels st := by
  unfold tokenFiltered at h
  split at h
  · split at h
    · exact imageFiltered_subset (List.mem_filter.mp h).1
    · exact imageFiltered_subset h
  · exact imageFiltered_subset h

theorem candidatePool_subset {st : MState} {req : RoutingRequest} {m : String}
    (h : m ∈ candidatePool st req) : m ∈ getAvailableModels st := by
  unfold candidatePool at h
  split at h
  · exact h
  · exact tokenFiltered_subset h

theorem mem_available_ne_empty {st : MState} {m : String}
    (h : m ∈ getAvailableModels st) : m ≠ "" := by
  have := List.mem_filter.mp h
  simpa using this.2

theorem mem_available_isAvailable {st : MState} {m : String}
    (h : m ∈ getAvailableModels st) : isModelAvailable st m = true := by
  have hm := (List.mem_filter.mp h).1
  unfold isModelAvailable
  rcases List.mem_cons.mp hm with h1 | h2
  · simp [h1]
  · simp only [Bool.or_eq_true, beq_iff_eq]
    exact Or.inr (List.elem_eq_true_of_mem h2)

theorem calculateConfidence_bounds (st : MState) (m : String) (req : RoutingRequest) :
    0 ≤ calculateConfidence st m req ∧ calculateConfidence st m req ≤ 1 := by
  unfold calculateConfidence
  split
  · norm_num
  · constructor
    · exact le_max_left _ _
    · exact max_le (by norm_num) (min_le_left _ _)

theorem preferredHit_some {st : MState} {req : RoutingRequest} {s : ModelSelection}
    (h : preferredHit st req = some s) :
    ∃ p c, req.preferredModel = some p ∧ s = ⟨p, 1, "Preferred model specified and available"⟩ ∧
      p ≠ "" ∧ isModelAvailable st p = true ∧ st.caps p = some c ∧
      (!req.hasImage || c.supportsImages) = true := by
  unfold preferredHit at h
  split at h
  · exact absurd h (by simp)
  · rename_i p hp
    split at h
    · rename_i hcond
      split at h
      · rename_i c hc
        split at h
        · rename_i himg
          have hs : (⟨p, 1, "Preferred model specified and available"⟩ : ModelSelection) = s := by
            simpa using h
          have hcond' : p ≠ "" ∧ isModelAvailable st p = true := by
            simpa using hcond
          exact ⟨p, c, hp, hs.symm, hcond'.1, hcond'.2, hc, himg⟩
        · exact absurd h (by simp)
      · exact absurd h (by simp)
    · exact absurd h (by simp)

theorem selectModel_ok_cases {st : MState} {req : RoutingRequest} {sel : ModelSelection}
    (h : selectModel st req = .ok sel) :
    preferredHit st req = some sel ∨
    (preferredHit st req = none ∧ ∃ m, selectBestModel (candidatePool st req) = some m ∧
      sel = ⟨m, calculateConfidence st m req, getSelectionReason st m req⟩) := by
  unfold selectModel at h
  split at h
  · rename_i s hph
    left
    obtain rfl : s = sel := by simpa using h
    exact hph
  · rename_i hph
    right
    refine ⟨hph, ?_⟩
    split at h
    · exact absurd h (by simp)
    · rename_i m hm
      exact ⟨m, hm, by simpa using h.symm⟩

theorem selectModel_confidence_bounds {st : MState} {req : RoutingRequest}
    {sel : ModelSelection} (h : selectModel st req = .ok sel) :
    0 ≤ sel.confidence ∧ sel.confidence ≤ 1 := by
  rcases selectModel_ok_cases h with hph | ⟨-, m, -, rfl⟩
  · obtain ⟨p, c, -, rfl, -⟩ := preferredHit_some hph
    norm_num
  · exact calculateConfidence_bounds st m req

theorem selectFallbackModel_spec (st : MState) (req : RoutingRequest) (issues : List String) :
    ((validateModel st (selectFallbackModel st req issues).model req.hasImage req.maxTokens).valid
        = true ∧
      (selectFallbackModel st req issues).confidence = 7/10 ∧
      (selectFallbackModel st req issues).model ≠ st.config.primary) ∨
    ((selectFallbackModel st req issues).model = st.config.primary ∧
      (selectFallbackModel st req issues).confidence = 3/10 ∧
      ∀ m ∈ fallbackCandidates st,
        (validateModel st m req.hasImage req.maxTokens).valid = false) := by
  unfold selectFallbackModel
  split
  · rename_i m hf
    left
    refine ⟨by simpa using List.find?_some hf, rfl, ?_⟩
    have hmem := List.mem_of_find?_eq_some hf
    have hpred := (List.mem_filter.mp hmem).2
    simp only [Bool.and_eq_true, decide_eq_true_eq] at hpred
    exact hpred.1
  · rename_i hf
    right
    refine ⟨rfl, rfl, fun m hm => ?_⟩
    have := List.find?_eq_none.mp hf m hm
    simpa using this

theorem available_empty_selectModel (st : MState) (req : RoutingRequest)
    (hav : getAvailableModels st = []) :
    selectModel st req = .error "No available models" := by
  have hall : ∀ x ∈ st.config.primary :: st.config.fallback, x = "" := by
    intro x hx
    have := List.filter_eq_nil_iff.mp hav x hx
    simpa using this
  have hprim : st.config.primary = "" := hall _ (List.mem_cons_self _ _)
  have hph : preferredHit st req = none := by
    unfold preferredHit
    split
    · rfl
    · rename_i p hp
      have hcond : (p ≠ "" && isModelAvailable st p) = false := by
        by_cases hpe : p = ""
        · simp [hpe]
        · have hav' : isModelAvailable st p = false := by
            have h1 : (st.config.primary == p) = false := by
              simp [hprim, Ne.symm hpe]
            have h2 : st.config.fallback.contains p = false := by
              by_contra hcon
              have : p ∈ st.config.fallback :=
                List.mem_of_elem_eq_true (Bool.of_not_eq_false hcon)
              exact hpe (hall _ (List.mem_cons_of_mem _ this))
            unfold isModelAvailable
            rw [h1, h2]
            rfl
          rw [hav', Bool.and_false]
      have hcond' : ¬ ((p ≠ "" && isModelAvailable st p) = true) := by
        simp only [hcond]
        exact Bool.false_ne_true
      rw [if_neg hcond']
  have himg : imageFiltered st req = [] := by
    unfold imageFiltered
    rw [hav]
    split <;> simp
  have htok : tokenFiltered st req = [] := by
    unfold tokenFiltered
    rw [himg]
    split
    · split <;> simp
    · rfl
  have hpool : candidatePool st req = [] := by
    unfold candidatePool
    rw [htok, hav]
    simp
  rw [selectModel, hph, hpool]
  rfl

theorem routerSelectModelBody_cases (st : MState) (req : RoutingRequest) :
    (∃ sel, routerSelectModelBody st req = .ok sel ∧
      0 ≤ sel.confidence ∧ sel.confidence ≤ 1) ∨
    routerSelectModelBody st req = .error "No available models" := by
  cases hm : selectModel st req with
  | error e =>
    right
    have he : e = "No available models" := by
      unfold selectModel at hm
      split at hm
      · exact absurd hm (by simp)
      · split at hm
        · simpa using hm.symm
        · exact absurd hm (by simp)
    unfold routerSelectModelBody
    rw [hm, he]
  | ok s =>
    left
    by_cases hv : (validateModel st s.model req.hasImage req.maxTokens).valid = true
    · refine ⟨s, ?_, selectModel_confidence_bounds hm⟩
      unfold routerSelectModelBody
      rw [hm]
      simp [hv]
    · refine ⟨selectFallbackModel st req
        (validateModel st s.model req.hasImage req.maxTokens).issues, ?_, ?_⟩
      · unfold routerSelectModelBody
        rw [hm]
        simp [hv]
      · rcases selectFallbackModel_spec st req
            (validateModel st s.model req.hasImage req.maxTokens).issues with
          ⟨-, hc, -⟩ | ⟨-, hc, -⟩ <;> rw [hc] <;> norm_num

/-- C1 (amended): for every routing request with `hasImage = true`, the
model returned by `selectModel` either has a capability entry with
`supportsImages = true`, or its confidence is at most 0.3, or — when the
selected model has no capability entry at all (soft degradation onto a
model unknown to the capability table) — its confidence is exactly 0.5. -/
theorem image_request_selection_confidence (st : MState) (req : RoutingRequest)
    (sel : ModelSelection) (hImg : req.hasImage = true)
    (hsel : selectModel st req = .ok sel) :
    (∃ c, st.caps sel.model = some c ∧ c.supportsImages = true) ∨
    sel.confidence ≤ 3/10 ∨
    (st.caps sel.model = none ∧ sel.confidence = 1/2) := by
  rcases selectModel_ok_cases hsel with hph | ⟨-, m, -, rfl⟩
  · obtain ⟨p, c, -, rfl, -, -, hc, himg⟩ := preferredHit_some hph
    rw [hImg] at himg
    exact Or.inl ⟨c, hc, by simpa using himg⟩
  · cases hc : st.caps m with
    | none =>
      refine Or.inr (Or.inr ⟨rfl, ?_⟩)
      show calculateConfidence st m req = 1/2
      simp [calculateConfidence, hc]
    | some c =>
      cases hsi : c.supportsImages with
      | true => exact Or.inl ⟨c, rfl, hsi⟩
      | false =>
        refine Or.inr (Or.inl ?_)
        show calculateConfidence st m req ≤ 3/10
        have hconf : calculateConfidence st m req =
            max 0 (min 1 ((if req.requiresHighQuality &&
                (strIncludes m "gpt-4o" || strIncludes m "claude-3-5-sonnet")
              then (1:ℚ)/2 + 1/5 else 1/2) - 1/2)) := by
          simp [calculateConfidence, hc, hImg, hsi]
        rw [hconf]
        split_ifs <;> norm_num [min_def, max_def]

/-- C1 counterexample: with a single configured model that has no
capability entry and a request with `hasImage = true`, no model in the
candidate pool is image-capable, yet `selectModel` returns confidence
0.5, which is not ≤ 0.3 — refuting the claim as stated. -/
theorem image_request_selection_confidence_cx :
    selectModel c1State c1Req =
      .ok ⟨"custom/model", 1/2, "supports image processing, primary model"⟩ ∧
    (∀ m ∈ getAvailableModels c1State,
      ¬ ∃ c, c1State.caps m = some c ∧ c.supportsImages = true) ∧
    ¬ ((1:ℚ)/2 ≤ 3/10) := by
  refine ⟨rfl, ?_, by norm_num⟩
  intro m hm
  have hm' : m = "custom/model" := by
    have : m ∈ ["custom/model"] := hm
    simpa using this
  subst hm'
  rintro ⟨c, hc, -⟩
  have hnone : c1State.caps "custom/model" = none := rfl
  rw [hnone] at hc
  exact Option.noConfusion hc

/-- Witness for C1 applying the amended theorem at the counterexample
state: the unknown-capability disjunct holds with confidence 0.5. -/
theorem image_request_selection_confidence_witness :
    (∃ c, c1State.caps "custom/model" = some c ∧ c.supportsImages = true) ∨
    ((1:ℚ)/2 ≤ 3/10) ∨
    (c1State.caps "custom/model" = none ∧ (1:ℚ)/2 = 1/2) :=
  image_request_selection_confidence c1State c1Req
    ⟨"custom/model", 1/2, "supports image processing, primary model"⟩ rfl rfl

/-- C5 (amended): when `preferredModel` is set, `selectModel` returns it
with confidence exactly 1.0 if and only if it is nonempty, available
(primary or fallback), and has a known capability entry that supports
images whenever `hasImage` is true. The token budget is NOT checked by
the preferred-model fast path; otherwise selection proceeds to the
filtered candidate set. -/
theorem preferred_model_fast_path_iff (st : MState) (req : RoutingRequest) (p : String)
    (hp : req.preferredModel = some p) :
    (∃ r, selectModel st req = .ok ⟨p, 1, r⟩) ↔
    (p ≠ "" ∧ isModelAvailable st p = true ∧
      ∃ c, st.caps p = some c ∧ (req.hasImage = true → c.supportsImages = true)) := by
  constructor
  · rintro ⟨r, hr⟩
    rcases selectModel_ok_cases hr with hph | ⟨-, m, hm, heq⟩
    · obtain ⟨p', c, hp', heq, hne, hav, hc, himg⟩ := preferredHit_some hph
      obtain rfl : p' = p := by
        have := hp'.symm.trans hp
        simpa using this
      refine ⟨hne, hav, c, hc, fun hi => ?_⟩
      rw [hi] at himg
      simpa using himg
    · have hfields : p = m ∧ (1:ℚ) = calculateConfidence st m req := by
        have := heq
        rw [ModelSelection.mk.injEq] at this
        exact ⟨this.1, this.2.1⟩
      obtain ⟨rfl, hconf⟩ := hfields
      have hmem : p ∈ getAvailableModels st :=
        candidatePool_subset (selectBestModel_mem hm)
      refine ⟨mem_available_ne_empty hmem, mem_available_isAvailable hmem, ?_⟩
      cases hc : st.caps p with
      | none =>
        rw [show calculateConfidence st p req = 1/2 by
          simp [calculateConfidence, hc]] at hconf
        norm_num at hconf
      | some c =>
        refine ⟨c, rfl, fun hi => ?_⟩
        by_contra hns
        rw [Bool.not_eq_true] at hns
        rw [show calculateConfidence st p req =
            max 0 (min 1 ((if req.requiresHighQuality &&
                (strIncludes p "gpt-4o" || strIncludes p "claude-3-5-sonnet")
              then (1:ℚ)/2 + 1/5 else 1/2) - 1/2)) by
          simp [calculateConfidence, hc, hi, hns]] at hconf
        revert hconf
        split_ifs <;> norm_num [min_def, max_def]
  · rintro ⟨hne, hav, c, hc, himp⟩
    have hcond : (p ≠ "" && isModelAvailable st p) = true := by
      simp [hne, hav]
    have hph : preferredHit st req =
        some ⟨p, 1, "Preferred model specified and available"⟩ := by
      cases hi2 : req.hasImage with
      | false => simp [preferredHit, hp, hne, hav, hc, hi2]
      | true => simp [preferredHit, hp, hne, hav, hc, hi2, himp hi2]
    exact ⟨"Preferred model specified and available", by simp [selectModel, hph]⟩

/-- C5 counterexample: the preferred model is returned with confidence
exactly 1.0 although its `maxTokens` capability (4000) does not cover the
requested 8000 tokens — the token-budget-fit condition in the claim's
"if and only if" is violated by the code. -/
theorem preferred_model_fast_path_iff_cx :
    selectModel c5State c5Req =
      .ok ⟨"x-ai/grok-beta-vision", 1, "Preferred model specified and available"⟩ ∧
    ∃ c, c5State.caps "x-ai/grok-beta-vision" = some c ∧ c.maxTokens < 8000 := by
  refine ⟨rfl, ⟨_, rfl, ?_⟩⟩
  norm_num

/-- Witness for C5 applying the amended equivalence at the counterexample
configuration. -/
theorem preferred_model_fast_path_iff_witness :
    ∃ r, selectModel c5State c5Req = .ok ⟨"x-ai/grok-beta-vision", 1, r⟩ :=
  (preferred_model_fast_path_iff c5State c5Req "x-ai/grok-beta-vision" rfl).mpr
    ⟨by decide, rfl, ⟨_, rfl, fun _ => rfl⟩⟩

/-- C9 (amended): `selectFallbackModel` returns either a non-primary
fallback candidate that passes validation (confidence 0.7), or — when
every fallback candidate fails validation — the configured primary model
with confidence 0.3, even though that primary may be exactly the model
already proven invalid for this request. -/
theorem fallback_selection_excludes_only_primary (st : MState) (req : RoutingRequest)
    (issues : List String) :
    ((validateModel st (selectFallbackModel st req issues).model req.hasImage req.maxTokens).valid
        = true ∧
      (selectFallbackModel st req issues).confidence = 7/10 ∧
      (selectFallbackModel st req issues).model ≠ st.config.primary) ∨
    ((selectFallbackModel st req issues).model = st.config.primary ∧
      (selectFallbackModel st req issues).confidence = 3/10 ∧
      ∀ m ∈ fallbackCandidates st,
        (validateModel st m req.hasImage req.maxTokens).valid = false) :=
  selectFallbackModel_spec st req issues

/-- C9 counterexample: the manager selects "p", validation rejects it
("Model capabilities not known"), yet `selectFallbackModel` — and hence
the router's full flow for this very request — returns the same rejected
model "p" again, refuting the claim that a previously rejected model is
never returned for the same request. -/
theorem fallback_selection_excludes_only_primary_cx :
    selectModel c9State c9Req = .ok ⟨"p", 1/2, "primary model"⟩ ∧
    (validateModel c9State "p" c9Req.hasImage c9Req.maxTokens).valid = false ∧
    (selectFallbackModel c9State c9Req
        (validateModel c9State "p" c9Req.hasImage c9Req.maxTokens).issues).model = "p" ∧
    routerSelectModel c9State c9Req =
      ⟨"p", 3/10, "All models failed validation. Issues: Model capabilities not known"⟩ :=
  ⟨rfl, rfl, rfl, rfl⟩

/-- Witness for C9 applying the amended theorem at the counterexample
state. -/
theorem fallback_selection_excludes_only_primary_witness :
    ((validateModel c9State (selectFallbackModel c9State c9Req ["x"]).model
        c9Req.hasImage c9Req.maxTokens).valid = true ∧
      (selectFallbackModel c9State c9Req ["x"]).confidence = 7/10 ∧
      (selectFallbackModel c9State c9Req ["x"]).model ≠ c9State.config.primary) ∨
    ((selectFallbackModel c9State c9Req ["x"]).model = c9State.config.primary ∧
      (selectFallbackModel c9State c9Req ["x"]).confidence = 3/10 ∧
      ∀ m ∈ fallbackCandidates c9State,
        (validateModel c9State m c9Req.hasImage c9Req.maxTokens).valid = false) :=
  fallback_selection_excludes_only_primary c9State c9Req ["x"]

/-- C10: `ModelRouter.selectModel` is total: it always returns a
selection with confidence in [0, 1]; whenever the underlying try-block
throws, the result is the configured primary at confidence 0.1 with the
fallback reason; and an empty available-model list makes the try-block
throw `'No available models'`. -/
theorem router_select_model_total (st : MState) (req : RoutingRequest) :
    (∃ sel, routerSelectModel st req = sel ∧ 0 ≤ sel.confidence ∧ sel.confidence ≤ 1) ∧
    (∀ e, routerSelectModelBody st req = .error e →
      routerSelectModel st req = ⟨st.config.primary, 1/10, "Fallback due to selection error"⟩) ∧
    (getAvailableModels st = [] →
      routerSelectModelBody st req = .error "No available models") := by
  refine ⟨?_, ?_, ?_⟩
  · rcases routerSelectModelBody_cases st req with ⟨sel, hb, hlo, hhi⟩ | hb
    · refine ⟨sel, ?_, hlo, hhi⟩
      unfold routerSelectModel
      rw [hb]
    · refine ⟨⟨st.config.primary, 1/10, "Fallback due to selection error"⟩, ?_,
        by norm_num, by norm_num⟩
      unfold routerSelectModel
      rw [hb]
  · intro e he
    unfold routerSelectModel
    rw [he]
  · intro hav
    unfold routerSelectModelBody
    rw [available_empty_selectModel st req hav]

/-- Witness for C10: with no configured models the underlying selection
throws and the router still returns the primary at confidence 0.1. -/
theorem router_select_model_total_witness :
    routerSelectModel c10State {} =
      ⟨"", 1/10, "Fallback due to selection error"⟩ := by
  have h := router_select_model_total c10State {}
  exact h.2.1 "No available models" (h.2.2 rfl)

theorem retryGo_spec (cfg : RetryConfig) (outcomes : Nat → Outcome) :
    ∀ fuel attempt, 1 ≤ attempt → attempt ≤ effMaxRetries cfg →
      fuel = effMaxRetries cfg - attempt + 1 →
      (attempt ≤ (retryGo cfg outcomes attempt fuel).attempts ∧
        (retryGo cfg outcomes attempt fuel).attempts ≤ effMaxRetries cfg) ∧
      (∀ i, attempt ≤ i → i < (retryGo cfg outcomes attempt fuel).attempts →
        ∃ e, outcomes i = .failure e ∧ e.retryable = true) ∧
      (retryGo cfg outcomes attempt fuel).delays.length =
        (retryGo cfg outcomes attempt fuel).attempts - attempt ∧
      (∀ j, (hj : j < (retryGo cfg outcomes attempt fuel).delays.length) →
        ∃ e, outcomes (attempt + j) = .failure e ∧
          (retryGo cfg outcomes attempt fuel).delays.get ⟨j, hj⟩ =
            backoffBase cfg e * 2 ^ (attempt + j - 1)) ∧
      (∀ v, (retryGo cfg outcomes attempt fuel).result = .ok v ↔
        outcomes (retryGo cfg outcomes attempt fuel).attempts = .success v) ∧
      (∀ e, (retryGo cfg outcomes attempt fuel).result = .error e →
        outcomes (retryGo cfg outcomes attempt fuel).attempts = .failure e ∧
          (e.retryable = true →
            (retryGo cfg outcomes attempt fuel).attempts = effMaxRetries cfg)) := by
  intro fuel
  induction fuel with
  | zero => intro attempt h1 h2 hf; omega
  | succ f ih =>
    intro attempt h1 h2 hf
    cases ho : outcomes attempt with
    | success r =>
      have hstep : retryGo cfg outcomes attempt (f + 1) = ⟨.ok r, attempt, []⟩ := by
        simp [retryGo, ho]
      rw [hstep]
      refine ⟨⟨le_refl _, h2⟩, fun i hi1 hi2 => absurd hi2 (by simp; omega), by simp, ?_, ?_, ?_⟩
      · intro j hj
        simp at hj
      · intro v
        constructor
        · intro hv
          rw [ho]
          simpa using hv
        · intro hv
          rw [ho] at hv
          simpa using hv
      · intro e he
        simp at he
    | failure e =>
      by_cases hretry : e.retryable = true
      · by_cases hlast : attempt = effMaxRetries cfg
        · have hcond : (!e.retryable || attempt == effMaxRetries cfg) = true := by
            simp [hlast]
          have hstep : retryGo cfg outcomes attempt (f + 1) = ⟨.error e, attempt, []⟩ := by
            simp [retryGo, ho, hcond]
          rw [hstep]
          refine ⟨⟨le_refl _, h2⟩, fun i hi1 hi2 => absurd hi2 (by simp; omega),
            by simp, ?_, ?_, ?_⟩
          · intro j hj
            simp at hj
          · intro v
            constructor
            · intro hv
              simp at hv
            · intro hv
              rw [ho] at hv
              simp at hv
          · intro e' he'
            have he'' : e = e' := by simpa using he'
            subst he''
            exact ⟨ho, fun _ => hlast⟩
        · have hstep : retryGo cfg outcomes attempt (f + 1) =
              ⟨(retryGo cfg outcomes (attempt + 1) f).result,
               (retryGo cfg outcomes (attempt + 1) f).attempts,
               backoffBase cfg e * 2 ^ (attempt - 1) ::
                 (retryGo cfg outcomes (attempt + 1) f).delays⟩ := by
            simp [retryGo, ho, hretry, hlast]
          have hIH := ih (attempt + 1) (by omega) (by omega) (by omega)
          obtain ⟨⟨ha1, ha2⟩, hmid, hlen, hdel, hok, herr⟩ := hIH
          rw [hstep]
          refine ⟨⟨by simp; omega, ha2⟩, ?_, ?_, ?_, hok, ?_⟩
          · intro i hi1 hi2
            simp at hi2
            rcases Nat.eq_or_lt_of_le hi1 with h | h
            · exact ⟨e, h ▸ ho, hretry⟩
            · exact hmid i (by omega) hi2
          · simp
            omega
          · intro j hj
            simp at hj
            cases j with
            | zero =>
              refine ⟨e, by simpa using ho, ?_⟩
              simp
            | succ j' =>
              have hj' : j' < (retryGo cfg outcomes (attempt + 1) f).delays.length := by
                simpa using hj
              obtain ⟨e', he1, he2⟩ := hdel j' hj'
              refine ⟨e', ?_, ?_⟩
              · have : attempt + (j' + 1) = attempt + 1 + j' := by omega
                rw [this]
                exact he1
              · simp only [List.get_cons_succ]
                rw [he2]
                congr 2
                omega
          · intro e' he'
            obtain ⟨hx, hy⟩ := herr e' he'
            exact ⟨hx, hy⟩
      · have hstep : retryGo cfg outcomes attempt (f + 1) = ⟨.error e, attempt, []⟩ := by
          simp [retryGo, ho, hretry]
        rw [hstep]
        refine ⟨⟨le_refl _, h2⟩, fun i hi1 hi2 => absurd hi2 (by simp; omega),
          by simp, ?_, ?_, ?_⟩
        · intro j hj
          simp at hj
        · intro v
          constructor
          · intro hv
            simp at hv
          · intro hv
            rw [ho] at hv
            simp at hv
        · intro e' he'
          have he'' : e = e' := by simpa using he'
          subst he''
          exact ⟨ho, fun hcon => absurd hcon hretry⟩

/-- C2 (amended): `createChatCompletion` makes between 1 and maxRetries
(default 3) attempts; every attempt before the last failed with a
retryable error; before each subsequent attempt it waits
(retryAfter if present and nonzero, else retryDelay, itself defaulting
to 1000 when zero) × 2^(attempt−1); the run returns a success exactly
when the final attempt succeeded; and a returned error is the final
attempt's error, which is non-retryable unless the attempt budget was
exhausted — so the first non-retryable error stops the loop at once. -/
theorem create_chat_completion_retry_policy (cfg : RetryConfig) (outcomes : Nat → Outcome) :
    (1 ≤ (createChatCompletion cfg outcomes).attempts ∧
      (createChatCompletion cfg outcomes).attempts ≤ effMaxRetries cfg) ∧
    (∀ i, 1 ≤ i → i < (createChatCompletion cfg outcomes).attempts →
      ∃ e, outcomes i = .failure e ∧ e.retryable = true) ∧
    (createChatCompletion cfg outcomes).delays.length =
      (createChatCompletion cfg outcomes).attempts - 1 ∧
    (∀ j, (hj : j < (createChatCompletion cfg outcomes).delays.length) →
      ∃ e, outcomes (1 + j) = .failure e ∧
        (createChatCompletion cfg outcomes).delays.get ⟨j, hj⟩ =
          backoffBase cfg e * 2 ^ j) ∧
    (∀ v, (createChatCompletion cfg outcomes).result = .ok v ↔
      outcomes (createChatCompletion cfg outcomes).attempts = .success v) ∧
    (∀ e, (createChatCompletion cfg outcomes).result = .error e →
      outcomes (createChatCompletion cfg outcomes).attempts = .failure e ∧
        (e.retryable = true →
          (createChatCompletion cfg outcomes).attempts = effMaxRetries cfg)) := by
  have hM : 1 ≤ effMaxRetries cfg := by
    unfold effMaxRetries
    split <;> omega
  have h := retryGo_spec cfg outcomes (effMaxRetries cfg) 1 le_rfl hM (by omega)
  unfold createChatCompletion
  obtain ⟨ha, hmid, hlen, hdel, hok, herr⟩ := h
  refine ⟨ha, hmid, hlen, ?_, hok, herr⟩
  intro j hj
  obtain ⟨e, h1, h2⟩ := hdel j hj
  refine ⟨e, h1, ?_⟩
  rw [h2]
  have hxy : 1 + j - 1 = j := by omega
  rw [hxy]

/-- C2 counterexample: with a present `retryAfter = 0` the loop waits
`retryDelay * 2^0 = 1000` ms, not the `retryAfter * 2^0 = 0` ms the
claim dictates — `retryAfter || retryDelay || 1000` treats 0 as absent. -/
theorem create_chat_completion_retry_policy_cx :
    createChatCompletion {} c2Outcomes = ⟨.ok 42, 2, [1000]⟩ ∧
    (⟨"RATE_LIMITED", true, some 0⟩ : VBError).retryAfter = some 0 ∧
    (1000 : Nat) ≠ 0 * 2 ^ 0 := by
  exact ⟨rfl, rfl, by norm_num⟩

/-- Witness for C2: the amended theorem applied to the counterexample
outcome sequence yields the success of the final (second) attempt. -/
theorem create_chat_completion_retry_policy_witness :
    (createChatCompletion {} c2Outcomes).result = .ok 42 :=
  ((create_chat_completion_retry_policy {} c2Outcomes).2.2.2.2.1 42).mpr rfl

/-- C7: `handleError` is a total classification. A transport failure maps
to retryable `NETWORK_ERROR`; 400/401/403/404 map to their non-retryable
codes; 429 maps to retryable `RATE_LIMITED` with `retryAfter` taken from
the rate-limit header (default 60 s, in milliseconds); 500/502/503/504
map to retryable `SERVER_ERROR`; every other status maps to
`UNKNOWN_ERROR` with `retryable = (status ≥ 500)`. Consequently the
result is retryable exactly for transport failures, 429 and 5xx. -/
theorem handle_error_classification (cfg : RetryConfig) (resp : Option ErrResponse) :
    (resp = none → handleError cfg resp = ⟨"NETWORK_ERROR", true, some cfg.retryDelay⟩) ∧
    (∀ r, resp = some r →
      (r.status = 400 → handleError cfg resp = ⟨"BAD_REQUEST", false, none⟩) ∧
      (r.status = 401 → handleError cfg resp = ⟨"AUTHENTICATION_ERROR", false, none⟩) ∧
      (r.status = 403 → handleError cfg resp = ⟨"AUTHORIZATION_ERROR", false, none⟩) ∧
      (r.status = 404 → handleError cfg resp = ⟨"MODEL_NOT_FOUND", false, none⟩) ∧
      (r.status = 429 → handleError cfg resp =
        ⟨"RATE_LIMITED", true, some ((r.retryAfterHeader.getD 60) * 1000)⟩) ∧
      (r.status = 500 ∨ r.status = 502 ∨ r.status = 503 ∨ r.status = 504 →
        handleError cfg resp = ⟨"SERVER_ERROR", true, some cfg.retryDelay⟩) ∧
      (r.status ∉ ([400, 401, 403, 404, 429, 500, 502, 503, 504] : List Nat) →
        handleError cfg resp = ⟨"UNKNOWN_ERROR", decide (r.status ≥ 500), none⟩)) ∧
    ((handleError cfg resp).retryable = true ↔
      (resp = none ∨ ∃ r, resp = some r ∧ (r.status = 429 ∨ 500 ≤ r.status))) := by
  refine ⟨?_, ?_, ?_⟩
  · rintro rfl
    rfl
  · rintro r rfl
    refine ⟨?_, ?_, ?_, ?_, ?_, ?_, ?_⟩ <;> intro hs
    · simp [handleError, handleErrorStatus, hs]
    · simp [handleError, handleErrorStatus, hs]
    · simp [handleError, handleErrorStatus, hs]
    · simp [handleError, handleErrorStatus, hs]
    · simp [handleError, handleErrorStatus, hs]
    · rcases hs with h | h | h | h <;> simp [handleError, handleErrorStatus, h]
    · simp only [List.mem_cons, List.not_mem_nil, or_false] at hs
      push_neg at hs
      obtain ⟨n400, n401, n403, n404, n429, n500, n502, n503, n504⟩ := hs
      show handleErrorStatus cfg r = _
      unfold handleErrorStatus
      rw [if_neg n400, if_neg n401, if_neg n403, if_neg n404, if_neg n429,
        if_neg (by tauto)]
  · cases resp with
    | none => simp [handleError]
    | some r =>
      show (handleErrorStatus cfg r).retryable = true ↔ _
      unfold handleErrorStatus
      split_ifs with h1 h2 h3 h4 h5 h6 <;> first
        | (simp_all; omega)
        | simp_all

/-- Witness for C7: status 501 is unmapped and classifies as
`UNKNOWN_ERROR` with `retryable = (501 ≥ 500) = true`. -/
theorem handle_error_classification_witness :
    handleError {} (some ⟨501, none⟩) = ⟨"UNKNOWN_ERROR", true, none⟩ :=
  ((handle_error_classification {} (some ⟨501, none⟩)).2.1 ⟨501, none⟩ rfl).2.2.2.2.2.2
    (by decide)

theorem cbReachable_threshold {cfg : CBConfig} {s : CBState}
    (h : CBReachable cfg s) :
    (s.status = .opened ∨ s.status = .halfOpen) →
      cfg.failureThreshold ≤ s.failures := by
  induction h with
  | init =>
    rintro (hc | hc) <;> exact absurd hc (by simp [CBState.init])
  | step s now op hr ih =>
    intro hc
    unfold cbExecute at hc ⊢
    cases hst : s.status with
    | opened =>
      by_cases ht : now - s.lastFailureTime > cfg.recoveryTimeout
      · rw [if_pos ht] at hc ⊢
        cases op with
        | success =>
          simp [cbRunOp, cbOnSuccess, hst] at hc
        | failure =>
          simp only [cbRunOp, cbOnFailure]
          have hs : cfg.failureThreshold ≤ s.failures := ih (Or.inl hst)
          omega
      · rw [if_neg ht] at hc ⊢
        exact ih (Or.inl hst)
    | closed =>
      cases op with
      | success => simp [cbRunOp, cbOnSuccess, hst] at hc
      | failure =>
        simp only [cbRunOp, cbOnFailure, hst] at hc ⊢
        by_cases hge : s.failures + 1 ≥ cfg.failureThreshold
        · omega
        · rw [if_neg hge] at hc
          rcases hc with hc | hc <;> exact absurd hc (by simp)
    | halfOpen =>
      cases op with
      | success => simp [cbRunOp, cbOnSuccess, hst] at hc
      | failure =>
        simp only [cbRunOp, cbOnFailure]
        have hs : cfg.failureThreshold ≤ s.failures := ih (Or.inr hst)
        omega

theorem cbConsecFailures_spec (cfg : CBConfig) (times : Nat → Nat)
    (hthr : 1 ≤ cfg.failureThreshold) :
    ∀ k, k ≤ cfg.failureThreshold →
      (cbConsecFailures cfg times k).failures = k ∧
      (cbConsecFailures cfg times k).status =
        (if k = cfg.failureThreshold then .opened else .closed) := by
  intro k
  induction k with
  | zero =>
    intro hk
    refine ⟨rfl, ?_⟩
    rw [if_neg (by omega)]
    rfl
  | succ k ihk =>
    intro hk
    obtain ⟨hf, hs⟩ := ihk (by omega)
    have hsc : (cbConsecFailures cfg times k).status = .closed := by
      rw [hs, if_neg (by omega)]
    unfold cbConsecFailures
    rw [cbExecute, hsc]
    simp only [cbRunOp, cbOnFailure, hf]
    constructor
    · trivial
    · by_cases hlast : k + 1 = cfg.failureThreshold
      · rw [if_pos hlast, if_pos (by omega)]
      · rw [if_neg hlast, if_neg (by omega), hsc]

/-- C3: the `CircuitBreaker` lifecycle. It starts closed with zero
failures; from the initial state it is open exactly after
`failureThreshold` consecutive failures; while open and within
`recoveryTimeout` of the last failure, `execute` rejects with the
breaker-open error without running the operation; once the timeout has
elapsed the next `execute` runs the operation (trial call through the
half-open state); a success closes the breaker and resets the failure
count to zero; a failure of the trial call in a reachable state reopens
the breaker and resets the cooldown clock to the current time. -/
theorem circuit_breaker_lifecycle (cfg : CBConfig) (hthr : 1 ≤ cfg.failureThreshold) :
    (CBState.init.status = .closed ∧ CBState.init.failures = 0) ∧
    (∀ times k, k ≤ cfg.failureThreshold →
      (cbConsecFailures cfg times k).status =
        (if k = cfg.failureThreshold then .opened else .closed)) ∧
    (∀ s now op, s.status = .opened →
      now - s.lastFailureTime ≤ cfg.recoveryTimeout →
      cbExecute cfg s now op = (s, .breakerOpenError, false)) ∧
    (∀ s now op, s.status = .opened →
      now - s.lastFailureTime > cfg.recoveryTimeout →
      (cbExecute cfg s now op).2.2 = true) ∧
    (∀ s now, (s.status = .opened → now - s.lastFailureTime > cfg.recoveryTimeout) →
      (cbExecute cfg s now .success).1.status = .closed ∧
      (cbExecute cfg s now .success).1.failures = 0) ∧
    (∀ s now, CBReachable cfg s → s.status = .opened →
      now - s.lastFailureTime > cfg.recoveryTimeout →
      (cbExecute cfg s now .failure).1.status = .opened ∧
      (cbExecute cfg s now .failure).1.lastFailureTime = now) := by
  refine ⟨⟨rfl, rfl⟩, ?_, ?_, ?_, ?_, ?_⟩
  · exact fun times k hk => (cbConsecFailures_spec cfg times hthr k hk).2
  · intro s now op hst ht
    simp only [cbExecute, hst]
    rw [if_neg (by omega)]
  · intro s now op hst ht
    simp only [cbExecute, hst]
    rw [if_pos ht]
    cases op <;> rfl
  · intro s now himp
    unfold cbExecute
    cases hst : s.status with
    | opened =>
      rw [if_pos (himp hst)]
      exact ⟨rfl, rfl⟩
    | closed => exact ⟨rfl, rfl⟩
    | halfOpen => exact ⟨rfl, rfl⟩
  · intro s now hr hst ht
    have hinv := cbReachable_threshold hr (Or.inl hst)
    simp only [cbExecute, hst]
    rw [if_pos ht]
    simp only [cbRunOp, cbOnFailure]
    refine ⟨?_, trivial⟩
    rw [if_pos (by omega)]

/-- Witness for C3: three consecutive failures open the breaker, and an
open breaker within its cooldown rejects without running the operation. -/
theorem circuit_breaker_lifecycle_witness :
    (cbConsecFailures c3Cfg (fun i => i) 3).status = .opened ∧
    cbExecute c3Cfg ⟨3, 5, .opened⟩ 12 .success =
      (⟨3, 5, .opened⟩, .breakerOpenError, false) := by
  have h := circuit_breaker_lifecycle c3Cfg (by decide)
  constructor
  · have h2 := h.2.1 (fun i => i) 3 (by decide)
    rw [h2]
    rfl
  · exact h.2.2.1 ⟨3, 5, .opened⟩ 12 .success rfl (by decide)

/-- C4 (amended): the size ceiling is enforced once, before any image
decoding: an oversized payload is rejected with `IMAGE_TOO_LARGE` no
matter what the decoder/re-encoder would do (it is never consulted).
After optional re-encoding there is no second size check: a successful
result's size is exactly the optimized buffer's length, which may exceed
`maxSize` when re-encoding inflates the payload. -/
theorem image_size_checked_before_decode_only (opts : ImgOptions)
    (reEncode : String → List Nat → Option (List Nat))
    (buffer : List Nat) (format : String) :
    (buffer.length > opts.maxSize →
      processImage opts reEncode buffer format =
        .error ⟨"IMAGE_TOO_LARGE", false, none⟩) ∧
    (∀ r, processImage opts reEncode buffer format = .ok r →
      buffer.length ≤ opts.maxSize ∧
      r.size = (optimizeImage reEncode buffer format).length ∧
      r.bytes = optimizeImage reEncode buffer format) := by
  constructor
  · intro h
    unfold processImage
    rw [if_pos h]
  · intro r hr
    unfold processImage at hr
    split at hr
    · exact absurd hr (by simp)
    · split at hr
      · exact absurd hr (by simp)
      · refine ⟨by omega, ?_, ?_⟩
        · have := congrArg (fun x => match x with | .ok v => v.size | .error _ => 0) hr
          simpa using this.symm
        · have := congrArg (fun x => match x with | .ok v => v.bytes | .error _ => []) hr
          simpa using this.symm

/-- C4 counterexample: a 3-byte png under a 4-byte ceiling whose
re-encoding doubles it to 6 bytes is returned at size 6 > 4 — the
ceiling is not re-enforced after re-encoding. -/
theorem image_size_checked_before_decode_only_cx :
    processImage ⟨4, ["png"], 85, 2048⟩ (fun _ b => some (b ++ b)) [1, 2, 3] "png" =
      .ok ⟨"png", 6, [1, 2, 3, 1, 2, 3]⟩ ∧ 6 > 4 :=
  ⟨by rfl, by norm_num⟩

/-- Witness for C4: an oversized payload is rejected with the too-large
error even under an inflating re-encoder. -/
theorem image_size_checked_before_decode_only_witness :
    processImage ⟨2, ["png"], 85, 2048⟩ (fun _ b => some (b ++ b)) [1, 2, 3] "png" =
      .error ⟨"IMAGE_TOO_LARGE", false, none⟩ :=
  (image_size_checked_before_decode_only ⟨2, ["png"], 85, 2048⟩
    (fun _ b => some (b ++ b)) [1, 2, 3] "png").1 (by decide)

/-- C6: feeding deltas ["Hello", " world", "."] then done yields one
intermediate partial response and exactly one final non-partial response
(metadata.partial = false) whose text is "Hello world."; the final text
goes through the same `formatResponseText` used by the non-streaming
`transformVisionResponse`, which on the same accumulated content
produces the same "Hello world." (no analysis prefix applies to it on
either path). -/
theorem streaming_hello_world_single_final :
    (transformStreamingResponse {} c6Stream).map (fun r => (r.text, r.partialFlag)) =
      [(" Hello world.", some true), ("Hello world.", some false)] ∧
    ((transformStreamingResponse {} c6Stream).filter
      (fun r => r.partialFlag == some false)).length = 1 ∧
    (transformVisionResponse ⟨"model", some (.str " Hello world.")⟩ {}).text =
      "Hello world." ∧
    (∀ s opts, (createFinalResponse s opts).text = formatResponseText s opts ∧
      ∀ m, (transformVisionResponse ⟨m, some (.str s)⟩ opts).text =
        formatResponseText s opts) :=
  ⟨rfl, rfl, rfl, fun _ _ => ⟨rfl, fun _ => rfl⟩⟩

/-- C8 (amended): for text longer than `maxLength`, the output always
ends with the truncation marker; the cut point is searched only within
the first `maxLength − 50` characters: when the last '.'-or-newline
boundary there lies beyond 0.7·maxLength the text is cut right after
that boundary, and otherwise — even when a sentence boundary exists
before the limit but outside the search window or below the 0.7
threshold — the text is cut mid-sentence at `maxLength − 50` with an
ellipsis before the marker. -/
theorem truncate_response_spec (text : String) (maxLength : Nat)
    (h : text.length > maxLength) :
    (∃ pre, truncateResponse text maxLength = pre ++ "\n\n[Response truncated]") ∧
    (10 * max (lastIdx (text.toList.take (maxLength - 50)) '.')
        (lastIdx (text.toList.take (maxLength - 50)) '\n') > 7 * (maxLength : Int) →
      truncateResponse text maxLength =
        String.mk ((text.toList.take (maxLength - 50)).take
          ((max (lastIdx (text.toList.take (maxLength - 50)) '.')
            (lastIdx (text.toList.take (maxLength - 50)) '\n')).toNat + 1)) ++
          "\n\n[Response truncated]") ∧
    (¬ (10 * max (lastIdx (text.toList.take (maxLength - 50)) '.')
        (lastIdx (text.toList.take (maxLength - 50)) '\n') > 7 * (maxLength : Int)) →
      truncateResponse text maxLength =
        String.mk (text.toList.take (maxLength - 50)) ++ "...\n\n[Response truncated]") := by
  have hred : truncateResponse text maxLength =
      (if 10 * max (lastIdx (text.toList.take (maxLength - 50)) '.')
          (lastIdx (text.toList.take (maxLength - 50)) '\n') > 7 * (maxLength : Int) then
        String.mk ((text.toList.take (maxLength - 50)).take
          ((max (lastIdx (text.toList.take (maxLength - 50)) '.')
            (lastIdx (text.toList.take (maxLength - 50)) '\n')).toNat + 1)) ++
          "\n\n[Response truncated]"
      else
        String.mk (text.toList.take (maxLength - 50)) ++ "...\n\n[Response truncated]") := by
    unfold truncateResponse
    rw [if_neg (by omega)]
  by_cases hc : 10 * max (lastIdx (text.toList.take (maxLength - 50)) '.')
      (lastIdx (text.toList.take (maxLength - 50)) '\n') > 7 * (maxLength : Int)
  · rw [hred, if_pos hc]
    refine ⟨⟨_, rfl⟩, fun _ => rfl, fun hcon => absurd hc hcon⟩
  · rw [hred, if_neg hc]
    refine ⟨⟨String.mk (text.toList.take (maxLength - 50)) ++ "...", ?_⟩,
      fun hcon => absurd hcon hc, fun _ => rfl⟩
    rw [String.append_assoc]
    rfl

/-- C8 counterexample: with a 100-character limit, the only sentence
boundary (index 50) lies before the limit, yet the output is cut
mid-run at character 50 with an ellipsis — not at that boundary —
because the boundary search stops at `maxLength − 50 = 50` characters
and falls back when nothing is found there. -/
theorem truncate_response_spec_cx :
    truncateResponse c8CxText 100 =
      String.mk (List.replicate 50 'a') ++ "...\n\n[Response truncated]" ∧
    c8CxText.toList.take 51 = List.replicate 50 'a' ++ ['.'] ∧
    (50 : Nat) < 100 ∧
    ¬ (truncateResponse c8CxText 100 =
        String.mk (List.replicate 50 'a' ++ ['.']) ++ "\n\n[Response truncated]") := by
  refine ⟨rfl, rfl, by norm_num, ?_⟩
  intro hcon
  have : (String.mk (List.replicate 50 'a') ++ "...\n\n[Response truncated]" : String) =
      String.mk (List.replicate 50 'a' ++ ['.']) ++ "\n\n[Response truncated]" := by
    rw [← hcon]
    rfl
  exact absurd this (by decide)

/-- Witness for C8: the claim's own concrete scenario (5,000 characters,
limit 4,000, boundary at position 3,950) through the amended theorem:
the cut ends exactly at the boundary plus the marker. -/
theorem lastIdxAux_not_mem {c : Char} {l : List Char} (h : c ∉ l) :
    lastIdxAux c l = none := by
  induction l with
  | nil => rfl
  | cons x rest ih =>
    unfold lastIdxAux
    rw [ih (fun hm => h (List.mem_cons_of_mem x hm))]
    have hxc : ¬ x = c := by
      intro hx
      rw [hx] at h
      exact h (List.mem_cons_self c rest)
    rw [if_neg hxc]

theorem lastIdxAux_append_singleton (c : Char) (l : List Char) :
    lastIdxAux c (l ++ [c]) = some l.length := by
  induction l with
  | nil =>
    show lastIdxAux c [c] = some 0
    unfold lastIdxAux
    rw [if_pos rfl]
    rfl
  | cons x rest ih =>
    show lastIdxAux c (x :: (rest ++ [c])) = some (rest.length + 1)
    unfold lastIdxAux
    rw [ih]

theorem truncate_response_spec_witness :
    truncateResponse c8Text 4000 =
      String.mk (List.replicate 3949 'a' ++ ['.']) ++ "\n\n[Response truncated]" := by
  have hlen : c8Text.length > 4000 := by
    show (List.replicate 3949 'a' ++ '.' :: List.replicate 1050 'b').length > 4000
    rw [List.length_append, List.length_replicate, List.length_cons, List.length_replicate]
    norm_num
  have htrunc : c8Text.toList.take (4000 - 50) = List.replicate 3949 'a' ++ ['.'] := by
    show (List.replicate 3949 'a' ++ '.' :: List.replicate 1050 'b').take (4000 - 50) = _
    rw [List.take_append_eq_append_take]
    rw [List.take_of_length_le (l := List.replicate 3949 'a')
      (by rw [List.length_replicate]; norm_num)]
    rw [List.length_replicate]
    rw [show (4000 - 50 - 3949 : Nat) = 1 by norm_num]
    rfl
  have hidx : lastIdx (c8Text.toList.take (4000 - 50)) '.' = 3949 := by
    rw [htrunc]
    unfold lastIdx
    rw [lastIdxAux_append_singleton, List.length_replicate]
    rfl
  have hidx2 : lastIdx (c8Text.toList.take (4000 - 50)) '\n' = -1 := by
    rw [htrunc]
    unfold lastIdx
    rw [lastIdxAux_not_mem]
    intro hmem
    rw [List.mem_append] at hmem
    rcases hmem with hm | hm
    · exact absurd (List.eq_of_mem_replicate hm) (by decide)
    · simp at hm
  have h := truncate_response_spec c8Text 4000 hlen
  have h2 := h.2.1 (by rw [hidx, hidx2]; decide)
  rw [h2, hidx, hidx2, htrunc]
  rw [show (max (3949 : Int) (-1)).toNat + 1 = 3950 by decide]
  rw [List.take_of_length_le (by
    rw [List.length_append, List.length_replicate]
    simp)]

end VisionBridge
